import Mathlib

/-!
Shallow embedding of the route-resolution service of `api-gateway-go`
(`internal/app/route/service.go`) and of `GetJWTSecret`
(`pkg/security/jwt_helper.go`).

External collaborators (the cache port, the repository port, the path
matcher `model.MatchRoutePath`, and `config.LoadConfig`) are modelled as
oracles bundled in a `World`: each field gives the (deterministic) response
the collaborator returns to a given call.  Each service operation is a Lean
function from a `World` to the pair of its Go return value and the trace of
calls it issued to the collaborators, so that properties about call counts
and cache writes are expressible as statements about the trace.

In Go, `cache.Get(ctx, key, &out)` unmarshals into a destination whose
type depends on the call site (`*model.Route` vs `[]*model.Route`), so the
oracle has one field per destination type.  `Get` returns
`(found bool, err error)`; we model its outcome as
`Except GoErr (Option α)`: `.error e` is a failed `Get`, `.ok none` a
miss, `.ok (some v)` a hit.  A `Set` or `Delete` outcome is
`Option GoErr` (`none` = success).
-/

/-- Errors crossing the service boundary.  `routeNotFound` embeds the
sentinel `repository.ErrRouteNotFound`; `cacheErr`/`repoErr` stand for
arbitrary distinct errors produced by the cache backend or the repository. -/
inductive GoErr where
  | cacheErr (msg : String)
  | repoErr (msg : String)
  | routeNotFound
deriving DecidableEq, Repr

/-- `model.Route` restricted to the fields the service reads or writes. -/
structure Route where
  path : String
  serviceURL : String
  methods : List String
  isActive : Bool
  callCount : Int
  totalResponseTime : Int
deriving DecidableEq, Repr

/-- A value passed to `cache.Set`: either a single `*model.Route` or a
`[]*model.Route`. -/
inductive CacheVal where
  | one (r : Route)
  | list (rs : List Route)
deriving DecidableEq, Repr

/-- One call issued by the service to a collaborator. -/
inductive Event where
  | cacheGetEv (key : String)
  | cacheSetEv (key : String) (v : CacheVal) (ttlNs : Nat)
  | cacheDeleteEv (key : String)
  | repoGetRoutesEv
  | repoAddRouteEv (r : Route)
  | repoUpdateRouteEv (r : Route)
  | repoDeleteRouteEv (path : String)
  | repoUpdateMetricsEv (path : String) (callCount totalResponseTime : Int)
  | matchEv (pattern path : String)
deriving DecidableEq, Repr

/-- The responses of the external collaborators. -/
structure World where
  /-- `cache.Get` into a `*model.Route` destination. -/
  cacheGetRoute : String → Except GoErr (Option Route)
  /-- `cache.Get` into a `[]*model.Route` destination. -/
  cacheGetList : String → Except GoErr (Option (List Route))
  /-- Outcome of `cache.Set` (the service only logs a failure). -/
  cacheSet : String → Option GoErr
  /-- Outcome of `cache.Delete`. -/
  cacheDelete : String → Option GoErr
  /-- `repo.GetRoutes`. -/
  repoGetRoutes : Except GoErr (List Route)
  /-- `repo.AddRoute`. -/
  repoAddRoute : Route → Option GoErr
  /-- `repo.UpdateRoute`. -/
  repoUpdateRoute : Route → Option GoErr
  /-- `repo.DeleteRoute`. -/
  repoDeleteRoute : String → Option GoErr
  /-- `repo.UpdateMetrics`. -/
  repoUpdateMetrics : String → Int → Int → Option GoErr
  /-- `model.MatchRoutePath(registeredPattern, requestPath)`. -/
  matchRoutePath : String → String → Bool

/-- The cache key of the full route list. -/
def routesKey : String := "routes"

/-- The individual-route cache key `"route:" + path`. -/
def routeKey (path : String) : String := "route:" ++ path

/-- `5 * time.Minute` in nanoseconds (Go `time.Duration`). -/
def fiveMinutes : Nat := 5 * 60 * 1000000000

namespace Service

/-- `Service.GetRoutes`: cache-aside over the `"routes"` key.  Note that a
cache read error is returned to the caller (`return nil, err`). -/
def GetRoutes (w : World) : Except GoErr (List Route) × List Event :=
  match w.cacheGetList routesKey with
  | .error e => (.error e, [.cacheGetEv routesKey])
  | .ok (some rs) => (.ok rs, [.cacheGetEv routesKey])
  | .ok none =>
    match w.repoGetRoutes with
    | .error e => (.error e, [.cacheGetEv routesKey, .repoGetRoutesEv])
    | .ok rs => (.ok rs, [.cacheGetEv routesKey, .repoGetRoutesEv,
                          .cacheSetEv routesKey (.list rs) fiveMinutes])

/-- The list `GetRouteByPath` scans after an individual-cache miss, with
the trace of the calls made to obtain it.  Mirrors the second block of
`Service.GetRouteByPath`: on a cache read error the code logs and falls
through with `routes` still `nil` (it does NOT consult the repository);
only on a clean miss does it call `repo.GetRoutes` and repopulate the
`"routes"` key. -/
def fetchListForScan (w : World) : Except GoErr (List Route) × List Event :=
  match w.cacheGetList routesKey with
  | .error _ => (.ok [], [.cacheGetEv routesKey])
  | .ok (some rs) => (.ok rs, [.cacheGetEv routesKey])
  | .ok none =>
    match w.repoGetRoutes with
    | .error e => (.error e, [.cacheGetEv routesKey, .repoGetRoutesEv])
    | .ok rs => (.ok rs, [.cacheGetEv routesKey, .repoGetRoutesEv,
                          .cacheSetEv routesKey (.list rs) fiveMinutes])

/-- The scan loop of `Service.GetRouteByPath`: visit routes in list order,
call the matcher on `(r.path, path)`, and on the first match best-effort
cache the route under `route:<requested path>` and stop. -/
def scanRoutes (w : World) (path : String) : List Route → Option Route × List Event
  | [] => (none, [])
  | r :: rs =>
    if w.matchRoutePath r.path path then
      (some r, [.matchEv r.path path,
                .cacheSetEv (routeKey path) (.one r) fiveMinutes])
    else
      let rest := scanRoutes w path rs
      (rest.1, .matchEv r.path path :: rest.2)

/-- `Service.GetRouteByPath`: individual cache, then list (cache-aside
except on read error), then first-match scan, else `ErrRouteNotFound`. -/
def GetRouteByPath (w : World) (path : String) : Except GoErr Route × List Event :=
  match w.cacheGetRoute (routeKey path) with
  | .ok (some r) => (.ok r, [.cacheGetEv (routeKey path)])
  | _ =>
    let fetched := fetchListForScan w
    match fetched.1 with
    | .error e => (.error e, .cacheGetEv (routeKey path) :: fetched.2)
    | .ok rs =>
      let scanned := scanRoutes w path rs
      match scanned.1 with
      | some r => (.ok r, .cacheGetEv (routeKey path) :: (fetched.2 ++ scanned.2))
      | none => (.error .routeNotFound,
                 .cacheGetEv (routeKey path) :: (fetched.2 ++ scanned.2))

/-- `Service.ClearCache`: delete `"routes"` (fatal on failure), load the
list from the repository (fatal on failure), then best-effort delete each
route's individual key. -/
def ClearCache (w : World) : Except GoErr Unit × List Event :=
  match w.cacheDelete routesKey with
  | some e => (.error e, [.cacheDeleteEv routesKey])
  | none =>
    match w.repoGetRoutes with
    | .error e => (.error e, [.cacheDeleteEv routesKey, .repoGetRoutesEv])
    | .ok rs => (.ok (), .cacheDeleteEv routesKey :: .repoGetRoutesEv ::
                         rs.map (fun r => .cacheDeleteEv (routeKey r.path)))

/-- `Service.AddRoute`: repository create (fatal), then best-effort delete
of the `"routes"` key. -/
def AddRoute (w : World) (r : Route) : Except GoErr Unit × List Event :=
  match w.repoAddRoute r with
  | some e => (.error e, [.repoAddRouteEv r])
  | none => (.ok (), [.repoAddRouteEv r, .cacheDeleteEv routesKey])

/-- `Service.UpdateRoute`: repository update (fatal), then best-effort
deletes of `route:<registered path>` and `"routes"`. -/
def UpdateRoute (w : World) (r : Route) : Except GoErr Unit × List Event :=
  match w.repoUpdateRoute r with
  | some e => (.error e, [.repoUpdateRouteEv r])
  | none => (.ok (), [.repoUpdateRouteEv r,
                      .cacheDeleteEv (routeKey r.path), .cacheDeleteEv routesKey])

/-- `Service.DeleteRoute`: repository delete (fatal), then best-effort
deletes of `route:<path>` and `"routes"`. -/
def DeleteRoute (w : World) (path : String) : Except GoErr Unit × List Event :=
  match w.repoDeleteRoute path with
  | some e => (.error e, [.repoDeleteRouteEv path])
  | none => (.ok (), [.repoDeleteRouteEv path,
                      .cacheDeleteEv (routeKey path), .cacheDeleteEv routesKey])

/-- `Service.UpdateMetrics`: pure pass-through to the repository. -/
def UpdateMetrics (w : World) (path : String) (callCount totalResponseTime : Int) :
    Except GoErr Unit × List Event :=
  match w.repoUpdateMetrics path callCount totalResponseTime with
  | some e => (.error e, [.repoUpdateMetricsEv path callCount totalResponseTime])
  | none => (.ok (), [.repoUpdateMetricsEv path callCount totalResponseTime])

/-- `Service.IsMethodAllowed`: resolve via `GetRouteByPath`; on error return
`(false, err)`, otherwise whether `method` occurs in the route's methods.
Models Go's `(bool, error)` return as `Bool × Option GoErr`. -/
def IsMethodAllowed (w : World) (path method : String) :
    (Bool × Option GoErr) × List Event :=
  let res := GetRouteByPath w path
  match res.1 with
  | .error e => ((false, some e), res.2)
  | .ok r => ((r.methods.contains method, none), res.2)

end Service

/-! ### Trace classifiers -/

/-- Is this event a `cache.Set` call? -/
def Event.isCacheSet : Event → Bool
  | .cacheSetEv _ _ _ => true
  | _ => false

/-- Is this event a `cache.Set` on an individual-route key (any key other
than `"routes"`)? -/
def Event.isIndividualSet : Event → Bool
  | .cacheSetEv k _ _ => !(k == routesKey)
  | _ => false

/-- Is this event any call to the repository port? -/
def Event.isRepoCall : Event → Bool
  | .repoGetRoutesEv => true
  | .repoAddRouteEv _ => true
  | .repoUpdateRouteEv _ => true
  | .repoDeleteRouteEv _ => true
  | .repoUpdateMetricsEv _ _ _ => true
  | _ => false

/-- Is this event an invocation of the path matcher? -/
def Event.isMatchCall : Event → Bool
  | .matchEv _ _ => true
  | _ => false

/-- Is this event a `cache.Delete` call? -/
def Event.isCacheDelete : Event → Bool
  | .cacheDeleteEv _ => true
  | _ => false

/-! ### Basic lemmas about the embedding -/

/-- `"route:" ++ p` is never the key `"routes"` (the lengths differ:
`6 + p.length + 1 > 6` — the prefix alone has length 6 and a colon). -/
theorem routeKey_ne_routesKey (p : String) : routeKey p ≠ routesKey := by
  intro h
  have hlen : (routeKey p).length = routesKey.length := by rw [h]
  rw [routeKey, routesKey, String.length_append] at hlen
  have hp : p.length = 0 := by
    have h5 : ("route:" : String).length = 6 := by decide
    have h6 : ("routes" : String).length = 6 := by decide
    omega
  have hpe : p = "" := by
    cases p with
    | mk data =>
      cases data with
      | nil => rfl
      | cons c cs => simp [String.length] at hp
  subst hpe
  exact absurd h (by decide)

/-- Boolean form of `routeKey_ne_routesKey`. -/
theorem routeKey_beq_routesKey (p : String) : (routeKey p == routesKey) = false :=
  beq_eq_false_iff_ne.mpr (routeKey_ne_routesKey p)

/-- The scan returns exactly the first route in list order accepted by the
matcher. -/
theorem scanRoutes_fst (w : World) (path : String) (rs : List Route) :
    (Service.scanRoutes w path rs).1 = rs.find? (fun r => w.matchRoutePath r.path path) := by
  induction rs with
  | nil => rfl
  | cons r rest ih =>
    by_cases h : w.matchRoutePath r.path path
    · simp [Service.scanRoutes, h, List.find?_cons]
    · simp [Service.scanRoutes, h, List.find?_cons, ih]

/-- When no route in the list matches, the scan visits every route (one
matcher call per element, in order) and returns no route. -/
theorem scanRoutes_no_match (w : World) (path : String) (rs : List Route)
    (h : ∀ r ∈ rs, w.matchRoutePath r.path path = false) :
    Service.scanRoutes w path rs = (none, rs.map (fun r => Event.matchEv r.path path)) := by
  induction rs with
  | nil => rfl
  | cons r rest ih =>
    have hr : w.matchRoutePath r.path path = false := h r (List.mem_cons_self r rest)
    have hrest := ih (fun x hx => h x (List.mem_cons_of_mem r hx))
    simp [Service.scanRoutes, hr, hrest]

/-- The scan issues exactly one individual-key cache write when it finds a
match (for the requested path, the matched route, the fixed TTL) and none
otherwise. -/
theorem scanRoutes_individualSets (w : World) (path : String) (rs : List Route) :
    (Service.scanRoutes w path rs).2.filter Event.isIndividualSet =
      (match (Service.scanRoutes w path rs).1 with
        | some r => [Event.cacheSetEv (routeKey path) (CacheVal.one r) fiveMinutes]
        | none => []) := by
  induction rs with
  | nil => rfl
  | cons r rest ih =>
    by_cases h : w.matchRoutePath r.path path
    · simp [Service.scanRoutes, h, List.filter, Event.isIndividualSet,
            Event.isMatchCall, routeKey_beq_routesKey]
    · simp only [Service.scanRoutes, h, if_false, Bool.false_eq_true]
      simpa [List.filter, Event.isIndividualSet] using ih

/-- The scan issues no cache write at all when it finds no match. -/
theorem scanRoutes_no_set_of_none (w : World) (path : String) (rs : List Route)
    (h : (Service.scanRoutes w path rs).1 = none) :
    (Service.scanRoutes w path rs).2.filter Event.isCacheSet = [] := by
  induction rs with
  | nil => rfl
  | cons r rest ih =>
    by_cases hm : w.matchRoutePath r.path path
    · simp [Service.scanRoutes, hm] at h
    · simp only [Service.scanRoutes, hm, if_false, Bool.false_eq_true] at h ⊢
      simpa [List.filter, Event.isCacheSet] using ih h

/-- Every cache write issued by the scan is the individual write for the
requested path's key. -/
theorem scanRoutes_sets_keyed (w : World) (path : String) (rs : List Route) :
    ((Service.scanRoutes w path rs).2.filter Event.isCacheSet).all
      (fun e => match e with
        | .cacheSetEv k _ _ => k == routeKey path
        | _ => true) = true := by
  induction rs with
  | nil => rfl
  | cons r rest ih =>
    by_cases hm : w.matchRoutePath r.path path
    · simp [Service.scanRoutes, hm, List.filter, Event.isCacheSet]
    · simp only [Service.scanRoutes, hm, if_false, Bool.false_eq_true]
      simpa [List.filter, Event.isCacheSet] using ih

/-- The list-fetch step never writes an individual route key: its only
possible write is the repopulation of `"routes"`. -/
theorem fetchListForScan_sets (w : World) :
    (Service.fetchListForScan w).2.filter Event.isIndividualSet = [] := by
  unfold Service.fetchListForScan
  cases hg : w.cacheGetList routesKey with
  | error e => simp [List.filter, Event.isIndividualSet]
  | ok o =>
    cases o with
    | some rs => simp [List.filter, Event.isIndividualSet]
    | none =>
      cases hr : w.repoGetRoutes with
      | error e => simp [List.filter, Event.isIndividualSet]
      | ok rs => simp [List.filter, Event.isIndividualSet, routesKey]

/-- Did the individual-route cache lookup hit? -/
def isIndivHit (w : World) (p : String) : Bool :=
  match w.cacheGetRoute (routeKey p) with
  | .ok (some _) => true
  | _ => false

/-- On an individual-cache hit, `GetRouteByPath` returns the cached route
after that single cache read. -/
theorem getRouteByPath_of_hit (w : World) (p : String) (r : Route)
    (h : w.cacheGetRoute (routeKey p) = .ok (some r)) :
    Service.GetRouteByPath w p = (.ok r, [.cacheGetEv (routeKey p)]) := by
  unfold Service.GetRouteByPath
  rw [h]

/-- Without an individual-cache hit, `GetRouteByPath` is the list fetch
followed by the scan. -/
theorem getRouteByPath_of_not_hit (w : World) (p : String)
    (h : isIndivHit w p = false) :
    Service.GetRouteByPath w p =
      (match (Service.fetchListForScan w).1 with
        | .error e => (.error e, .cacheGetEv (routeKey p) :: (Service.fetchListForScan w).2)
        | .ok rs =>
          match (Service.scanRoutes w p rs).1 with
          | some r => (.ok r, .cacheGetEv (routeKey p) ::
              ((Service.fetchListForScan w).2 ++ (Service.scanRoutes w p rs).2))
          | none => (.error .routeNotFound, .cacheGetEv (routeKey p) ::
              ((Service.fetchListForScan w).2 ++ (Service.scanRoutes w p rs).2))) := by
  unfold isIndivHit at h
  unfold Service.GetRouteByPath
  cases hg : w.cacheGetRoute (routeKey p) with
  | error e => rfl
  | ok o =>
    cases o with
    | none => rfl
    | some r => rw [hg] at h; simp at h

/-! ### JWT secret resolution (`pkg/security/jwt_helper.go`) -/

/-- The `Auth` section of the configuration, restricted to the field
`GetJWTSecret` reads. -/
structure AuthConfig where
  jwtSecret : String
deriving DecidableEq, Repr

/-- The configuration object returned by `config.LoadConfig`. -/
structure Config where
  auth : AuthConfig
deriving DecidableEq, Repr

/-- The inputs `GetJWTSecret` consults: the two environment variables
(`os.Getenv` yields `""` when unset) and the result of
`config.LoadConfig("./config")` (`none` models a load error). -/
structure JwtEnv where
  jwtSecretKey : String
  agAuthJwtSecretKey : String
  loadConfig : Option Config
deriving DecidableEq, Repr

/-- The hard-coded insecure development fallback key. -/
def fallbackKey : String := "desenvolvimento_inseguro_nao_use_em_producao"

/-- `security.GetJWTSecret`: environment variable `JWT_SECRET_KEY`, then
`AG_AUTH_JWT_SECRET_KEY`, then the configuration file's secret when the
config loads and the value is non-empty, then the fallback key. -/
def GetJWTSecret (env : JwtEnv) : String :=
  if env.jwtSecretKey ≠ "" then env.jwtSecretKey
  else if env.agAuthJwtSecretKey ≠ "" then env.agAuthJwtSecretKey
  else
    match env.loadConfig with
    | some cfg => if cfg.auth.jwtSecret ≠ "" then cfg.auth.jwtSecret else fallbackKey
    | none => fallbackKey

/-- Modelled from the spec: "a simple ordered fallback chain (environment
variable → alternate environment variable → configuration file → insecure
development default)" — the first non-empty source wins, otherwise the
default. -/
def specOrderedFallback (sources : List String) (dflt : String) : String :=
  match sources.find? (fun s => !(s == "")) with
  | some s => s
  | none => dflt

/-- The configuration file's secret as a source string: empty when the
config fails to load, so it can never be selected in that case. -/
def configSecret (env : JwtEnv) : String :=
  match env.loadConfig with
  | some cfg => cfg.auth.jwtSecret
  | none => ""

/-! ### Concrete oracles used as witnesses -/

/-- A quiet world: both cache tiers miss, every write and delete succeeds,
the repository holds no routes, and the matcher is string equality. -/
def baseWorld : World where
  cacheGetRoute := fun _ => .ok none
  cacheGetList := fun _ => .ok none
  cacheSet := fun _ => none
  cacheDelete := fun _ => none
  repoGetRoutes := .ok []
  repoAddRoute := fun _ => none
  repoUpdateRoute := fun _ => none
  repoDeleteRoute := fun _ => none
  repoUpdateMetrics := fun _ _ _ => none
  matchRoutePath := fun pat p => pat == p

/-- A wildcard route (the spec's `"/a/*"` example). -/
def rStar : Route :=
  { path := "/a/*", serviceURL := "http://svc-star", methods := ["GET", "POST"],
    isActive := true, callCount := 0, totalResponseTime := 0 }

/-- An exact route (the spec's `"/a/b"` example). -/
def rExact : Route :=
  { path := "/a/b", serviceURL := "http://svc-exact", methods := ["GET"],
    isActive := true, callCount := 0, totalResponseTime := 0 }

/-- A matcher under which both `rStar` (`"/a/*"`) and `rExact` (`"/a/b"`)
accept the request path `"/a/b"`: the wildcard pattern accepts the two
paths under `"/a/"`, every other pattern only itself. -/
def starMatch (pat p : String) : Bool :=
  if pat == "/a/*" then p == "/a/b" || p == "/a/c" else pat == p

/-- The individual-cache lookup hit exactly when the oracle returned
`ok (some r)`. -/
theorem isIndivHit_iff (w : World) (p : String) :
    isIndivHit w p = true ↔ ∃ r, w.cacheGetRoute (routeKey p) = .ok (some r) := by
  unfold isIndivHit
  cases hg : w.cacheGetRoute (routeKey p) with
  | error e => simp
  | ok o =>
    cases o with
    | none => simp
    | some r => simp

/-- The list-fetch step only fails with an error surfaced by the
repository (a cache read error is swallowed). -/
theorem fetchListForScan_error (w : World) (e : GoErr)
    (h : (Service.fetchListForScan w).1 = .error e) : w.repoGetRoutes = .error e := by
  unfold Service.fetchListForScan at h
  cases hg : w.cacheGetList routesKey with
  | error e2 => rw [hg] at h; simp at h
  | ok o =>
    cases o with
    | some rs => rw [hg] at h; simp at h
    | none =>
      rw [hg] at h
      cases hr : w.repoGetRoutes with
      | error e2 => rw [hr] at h; simp at h; rw [h]
      | ok rs => rw [hr] at h; simp at h

/-- Every cache write of the list-fetch step targets the `"routes"` key. -/
theorem fetchListForScan_sets_keyed (w : World) :
    (((Service.fetchListForScan w).2.filter Event.isCacheSet).all
      (fun e => match e with
        | .cacheSetEv k _ _ => k == routesKey
        | _ => true)) = true := by
  unfold Service.fetchListForScan
  cases hg : w.cacheGetList routesKey with
  | error e => simp [List.filter, Event.isCacheSet]
  | ok o =>
    cases o with
    | some rs => simp [List.filter, Event.isCacheSet]
    | none =>
      cases hr : w.repoGetRoutes with
      | error e => simp [List.filter, Event.isCacheSet]
      | ok rs => simp [List.filter, Event.isCacheSet]

/-- Trace shape of the scan: one matcher call per visited route, in list
order, stopping at the first match (which adds the individual write). -/
theorem scanRoutes_snd (w : World) (p : String) (rs : List Route) :
    (Service.scanRoutes w p rs).2 =
      ((rs.takeWhile (fun r => !w.matchRoutePath r.path p)).map
        (fun r => Event.matchEv r.path p)) ++
      (match rs.find? (fun r => w.matchRoutePath r.path p) with
        | some r => [Event.matchEv r.path p,
                     Event.cacheSetEv (routeKey p) (CacheVal.one r) fiveMinutes]
        | none => []) := by
  induction rs with
  | nil => rfl
  | cons r rest ih =>
    by_cases h : w.matchRoutePath r.path p
    · simp [Service.scanRoutes, h, List.takeWhile, List.find?_cons]
    · simp [Service.scanRoutes, h, List.takeWhile, List.find?_cons, ih]

/-! ### C1 -/

/-- The repository holds the single route `rExact`, the individual tier
misses, and the `"routes"` list read fails. -/
def c1World : World :=
  { baseWorld with
    cacheGetList := fun _ => .error (.cacheErr "cache down"),
    repoGetRoutes := .ok [rExact] }

/-- Identical to `c1World` except the `"routes"` read is a clean miss. -/
def c1MissWorld : World :=
  { c1World with cacheGetList := fun _ => .ok none }

/-- C1: refuted on the code — when the individual tier misses and the
`"routes"` cache read errors, `GetRouteByPath` does NOT resolve the list
from the repository (it issues no repository call at all) and returns
`ErrRouteNotFound`, whereas the same worldly state with a clean cache miss
returns the matching route.  A cache read error therefore does change the
outcome, contradicting the claim (and the code's own comment announcing a
fall-through to the repository). -/
theorem c1_cache_error_changes_outcome :
    (Service.GetRouteByPath c1World "/a/b").1 = .error .routeNotFound ∧
    (Service.GetRouteByPath c1World "/a/b").2.filter Event.isRepoCall = [] ∧
    (Service.GetRouteByPath c1MissWorld "/a/b").1 = .ok rExact := by
  refine ⟨rfl, rfl, rfl⟩

/-! ### C2 -/

/-- A world whose cache read of `"routes"` fails while the repository
would happily serve the list. -/
def c2World : World :=
  { baseWorld with
    cacheGetList := fun _ => .error (.cacheErr "cache down"),
    repoGetRoutes := .ok [rExact] }

/-- A world whose `cache.Delete` always fails. -/
def c2DelWorld : World :=
  { baseWorld with cacheDelete := fun _ => some (.cacheErr "delete failed") }

/-- C2, counterexample: `GetRoutes` returns the cache read error itself,
never consulting the repository, and `ClearCache` returns the
cache-delete error — cache-layer faults are not absorbed by these two
operations. -/
theorem c2_cache_faults_escape :
    (Service.GetRoutes c2World).1 = .error (.cacheErr "cache down") ∧
    (Service.GetRoutes c2World).2.filter Event.isRepoCall = [] ∧
    (Service.ClearCache c2DelWorld).1 = .error (.cacheErr "delete failed") := by
  refine ⟨rfl, rfl, rfl⟩

/-- C2, amended: `GetRoutes` fails exactly when the `"routes"` cache read
fails (propagating that cache error, with no repository call implied) or
when it misses and the repository fails; `ClearCache` fails exactly when
deleting `"routes"` fails (propagating that cache error) or the
repository list load fails; `GetRouteByPath` still only surfaces
`RouteNotFound` or a repository error. -/
theorem c2_amended_error_propagation (w : World) (e : GoErr) :
    ((Service.GetRoutes w).1 = .error e ↔
      (w.cacheGetList routesKey = .error e ∨
       (w.cacheGetList routesKey = .ok none ∧ w.repoGetRoutes = .error e))) ∧
    ((Service.ClearCache w).1 = .error e ↔
      (w.cacheDelete routesKey = some e ∨
       (w.cacheDelete routesKey = none ∧ w.repoGetRoutes = .error e))) ∧
    (∀ p, (Service.GetRouteByPath w p).1 = .error e →
      e = .routeNotFound ∨ w.repoGetRoutes = .error e) := by
  refine ⟨?_, ?_, ?_⟩
  · unfold Service.GetRoutes
    cases hg : w.cacheGetList routesKey with
    | error e2 => simp
    | ok o =>
      cases o with
      | some rs => simp
      | none =>
        cases hr : w.repoGetRoutes with
        | error e2 => simp
        | ok rs => simp
  · unfold Service.ClearCache
    cases hd : w.cacheDelete routesKey with
    | some e2 => simp
    | none =>
      cases hr : w.repoGetRoutes with
      | error e2 => simp
      | ok rs => simp
  · intro p h
    by_cases hh : isIndivHit w p = true
    · obtain ⟨r, hr⟩ := (isIndivHit_iff w p).mp hh
      rw [getRouteByPath_of_hit w p r hr] at h
      simp at h
    · have hx : isIndivHit w p = false := by simpa using hh
      rw [getRouteByPath_of_not_hit w p hx] at h
      split at h
      · rename_i e2 heq
        simp at h
        subst h
        exact Or.inr (fetchListForScan_error w e2 heq)
      · rename_i rs heq
        split at h
        · rename_i r heq2
          simp at h
        · rename_i heq2
          simp at h
          exact Or.inl h.symm

/-- Witness for the amended C2: in `c2World` the only path-lookup error is
`RouteNotFound`, per the third conjunct. -/
theorem c2_amended_witness :
    GoErr.routeNotFound = GoErr.routeNotFound ∨
      c2World.repoGetRoutes = .error .routeNotFound :=
  (c2_amended_error_propagation c2World .routeNotFound).2.2 "/zzz" rfl

/-! ### C3 -/

/-- C3: with no individual-cache hit and a resolved list in which no route
satisfies the matcher for `p`, `GetRouteByPath` returns the
`RouteNotFound` error (and no route), after invoking the matcher once per
route of the entire list, in order. -/
theorem c3_no_match_returns_notFound (w : World) (p : String) (rs : List Route)
    (hmiss : isIndivHit w p = false)
    (hlist : (Service.fetchListForScan w).1 = .ok rs)
    (hno : ∀ r ∈ rs, w.matchRoutePath r.path p = false) :
    (Service.GetRouteByPath w p).1 = .error .routeNotFound ∧
    (Service.GetRouteByPath w p).2 =
      .cacheGetEv (routeKey p) :: ((Service.fetchListForScan w).2 ++
        rs.map (fun r => Event.matchEv r.path p)) := by
  have hscan := scanRoutes_no_match w p rs hno
  have h1 : (Service.scanRoutes w p rs).1 = none := by rw [hscan]
  have h2 : (Service.scanRoutes w p rs).2 =
      rs.map (fun r => Event.matchEv r.path p) := by rw [hscan]
  rw [getRouteByPath_of_not_hit w p hmiss, hlist]
  simp [h1, h2]

/-- The repository holds only `rExact`; both cache tiers miss. -/
def c3World : World :=
  { baseWorld with repoGetRoutes := .ok [rExact] }

/-- Witness for C3: requesting `"/zzz"` scans the whole one-route list and
fails with `RouteNotFound`. -/
theorem c3_witness :
    (Service.GetRouteByPath c3World "/zzz").1 = .error .routeNotFound ∧
    (Service.GetRouteByPath c3World "/zzz").2 =
      .cacheGetEv (routeKey "/zzz") :: ((Service.fetchListForScan c3World).2 ++
        [rExact].map (fun r => Event.matchEv r.path "/zzz")) :=
  c3_no_match_returns_notFound c3World "/zzz" [rExact] rfl rfl
    (by intro r hr; simp at hr; subst hr; rfl)

/-! ### C4 -/

/-- C4: when `GetRouteByPath` falls through to the scan, it visits the
resolved list in order (one matcher call per route up to the first match)
and returns the first route the matcher accepts — `List.find?` in list
order — or `RouteNotFound` when there is none. -/
theorem c4_first_match_wins (w : World) (p : String) (rs : List Route)
    (hmiss : isIndivHit w p = false)
    (hlist : (Service.fetchListForScan w).1 = .ok rs) :
    (Service.GetRouteByPath w p).1 =
      (match rs.find? (fun r => w.matchRoutePath r.path p) with
        | some r => .ok r
        | none => .error .routeNotFound) ∧
    (Service.GetRouteByPath w p).2 =
      .cacheGetEv (routeKey p) :: ((Service.fetchListForScan w).2 ++
        (((rs.takeWhile (fun r => !w.matchRoutePath r.path p)).map
            (fun r => Event.matchEv r.path p)) ++
          (match rs.find? (fun r => w.matchRoutePath r.path p) with
            | some r => [Event.matchEv r.path p,
                         Event.cacheSetEv (routeKey p) (CacheVal.one r) fiveMinutes]
            | none => []))) := by
  have h2 := scanRoutes_snd w p rs
  rw [getRouteByPath_of_not_hit w p hmiss, hlist]
  cases hfind : rs.find? (fun r => w.matchRoutePath r.path p) with
  | some r =>
    have h1 : (Service.scanRoutes w p rs).1 = some r := by
      rw [scanRoutes_fst]; exact hfind
    rw [hfind] at h2
    simp [h1, h2, hfind]
  | none =>
    have h1 : (Service.scanRoutes w p rs).1 = none := by
      rw [scanRoutes_fst]; exact hfind
    rw [hfind] at h2
    simp [h1, h2, hfind]

/-- The `"routes"` list cache holds `[rStar, rExact]` — both match
`"/a/b"` under `starMatch`, stored in that order. -/
def c4World : World :=
  { baseWorld with
    cacheGetList := fun _ => .ok (some [rStar, rExact]),
    matchRoutePath := starMatch }

/-- Witness for C4: with two matching routes stored as
`["/a/*", "/a/b"]`, the earlier `"/a/*"` route is returned. -/
theorem c4_witness :
    (Service.GetRouteByPath c4World "/a/b").1 = .ok rStar := by
  have h := (c4_first_match_wins c4World "/a/b" [rStar, rExact] rfl rfl).1
  rw [h]
  rfl

/-! ### C5 -/

/-- C5: an individual-cache hit returns the cached route immediately — the
trace is the single cache read: no repository call, no matcher
invocation, no cache write, no scan. -/
theorem c5_individual_hit_short_circuits (w : World) (p : String) (r : Route)
    (h : w.cacheGetRoute (routeKey p) = .ok (some r)) :
    Service.GetRouteByPath w p = (.ok r, [.cacheGetEv (routeKey p)]) ∧
    (Service.GetRouteByPath w p).2.filter Event.isRepoCall = [] ∧
    (Service.GetRouteByPath w p).2.filter Event.isMatchCall = [] ∧
    (Service.GetRouteByPath w p).2.filter Event.isCacheSet = [] := by
  have hg := getRouteByPath_of_hit w p r h
  rw [hg]
  exact ⟨rfl, rfl, rfl, rfl⟩

/-- The individual tier holds `rExact` under `"route:/a/b"`; the
repository would fail if it were ever consulted. -/
def c5World : World :=
  { baseWorld with
    cacheGetRoute := fun k => if k == "route:/a/b" then .ok (some rExact) else .ok none,
    repoGetRoutes := .error (.repoErr "repository must not be reached") }

/-- Witness for C5: the cached route is returned with a one-event trace. -/
theorem c5_witness :
    Service.GetRouteByPath c5World "/a/b" = (.ok rExact, [.cacheGetEv (routeKey "/a/b")]) ∧
    (Service.GetRouteByPath c5World "/a/b").2.filter Event.isRepoCall = [] ∧
    (Service.GetRouteByPath c5World "/a/b").2.filter Event.isMatchCall = [] ∧
    (Service.GetRouteByPath c5World "/a/b").2.filter Event.isCacheSet = [] :=
  c5_individual_hit_short_circuits c5World "/a/b" rExact rfl

/-! ### C6 -/

/-- C6: when the scan finds a match `r`, `GetRouteByPath` returns `r` and
the trace holds exactly one individual-key cache write — under
`"route:" ++ p` (the requested path, not the registered pattern `r.path`)
with the fixed 5-minute TTL.  The statement holds for every world, in
particular those whose `cache.Set` fails: the write's outcome never
affects the returned route. -/
theorem c6_match_writes_requested_key (w : World) (p : String) (rs : List Route) (r : Route)
    (hmiss : isIndivHit w p = false)
    (hlist : (Service.fetchListForScan w).1 = .ok rs)
    (hfind : rs.find? (fun x => w.matchRoutePath x.path p) = some r) :
    (Service.GetRouteByPath w p).1 = .ok r ∧
    (Service.GetRouteByPath w p).2.filter Event.isIndividualSet =
      [Event.cacheSetEv (routeKey p) (CacheVal.one r) fiveMinutes] := by
  have h1 : (Service.scanRoutes w p rs).1 = some r := by
    rw [scanRoutes_fst]; exact hfind
  have hscan := scanRoutes_individualSets w p rs
  rw [h1] at hscan
  have hfetch := fetchListForScan_sets w
  rw [getRouteByPath_of_not_hit w p hmiss, hlist]
  constructor
  · simp [h1]
  · simp only [h1]
    simp [List.filter_cons, List.filter_append, Event.isIndividualSet, hscan, hfetch]

/-- Both routes sit in the list cache, both match `"/a/b"`, and every
`cache.Set` fails. -/
def c6World : World :=
  { baseWorld with
    cacheGetList := fun _ => .ok (some [rStar, rExact]),
    matchRoutePath := starMatch,
    cacheSet := fun _ => some (.cacheErr "set failed") }

/-- Witness for C6: the matched `rStar` is cached under the requested
path's key `"route:/a/b"` (not under its pattern `"/a/*"`), with the
5-minute TTL, and is returned although the write fails. -/
theorem c6_witness :
    (Service.GetRouteByPath c6World "/a/b").1 = .ok rStar ∧
    (Service.GetRouteByPath c6World "/a/b").2.filter Event.isIndividualSet =
      [Event.cacheSetEv (routeKey "/a/b") (CacheVal.one rStar) fiveMinutes] :=
  c6_match_writes_requested_key c6World "/a/b" [rStar, rExact] rStar rfl rfl (by decide)

/-! ### C7 -/

/-- C7: `IsMethodAllowed` returns `(true, nil)` exactly when
`GetRouteByPath` succeeds with a route whose method set holds `method`;
`(false, nil)` when it succeeds without the method (in particular for an
empty method set); and `(false, e)` with the unchanged error `e` when
`GetRouteByPath` fails. -/
theorem c7_isMethodAllowed_spec (w : World) (p m : String) :
    ((Service.IsMethodAllowed w p m).1 = (true, none) ↔
      ∃ r, (Service.GetRouteByPath w p).1 = .ok r ∧ m ∈ r.methods) ∧
    (∀ r, (Service.GetRouteByPath w p).1 = .ok r →
      (Service.IsMethodAllowed w p m).1 = (r.methods.contains m, none)) ∧
    (∀ e, (Service.GetRouteByPath w p).1 = .error e →
      (Service.IsMethodAllowed w p m).1 = (false, some e)) := by
  unfold Service.IsMethodAllowed
  cases hg : (Service.GetRouteByPath w p).1 with
  | error e => simp [hg]
  | ok r => simp [hg, List.elem_iff]

/-- The list cache holds `[rExact]` (methods `["GET"]`). -/
def c7World : World :=
  { baseWorld with cacheGetList := fun _ => .ok (some [rExact]) }

/-- Witness for C7: `"DELETE"` on the resolved route is `(false, nil)`;
an unmatched path propagates `RouteNotFound` as `(false, err)`. -/
theorem c7_witness :
    (Service.IsMethodAllowed c7World "/a/b" "DELETE").1 = (false, none) ∧
    (Service.IsMethodAllowed c7World "/zzz" "GET").1 = (false, some .routeNotFound) := by
  constructor
  · have h := (c7_isMethodAllowed_spec c7World "/a/b" "DELETE").2.1 rExact rfl
    simpa using h
  · exact (c7_isMethodAllowed_spec c7World "/zzz" "GET").2.2 .routeNotFound rfl

/-! ### C8 -/

/-- C8: for `UpdateRoute` and `DeleteRoute`, a repository failure is
returned with no cache deletion issued; on repository success the service
deletes `route:<path>` and `"routes"` (in that order) and returns nil,
whatever the outcomes of the two deletions. -/
theorem c8_mutation_invalidation (w : World) (r : Route) (p : String) :
    ((∀ e, w.repoUpdateRoute r = some e →
        (Service.UpdateRoute w r).1 = .error e ∧
        (Service.UpdateRoute w r).2.filter Event.isCacheDelete = []) ∧
     (w.repoUpdateRoute r = none →
        (Service.UpdateRoute w r).1 = .ok () ∧
        (Service.UpdateRoute w r).2.filter Event.isCacheDelete =
          [.cacheDeleteEv (routeKey r.path), .cacheDeleteEv routesKey])) ∧
    ((∀ e, w.repoDeleteRoute p = some e →
        (Service.DeleteRoute w p).1 = .error e ∧
        (Service.DeleteRoute w p).2.filter Event.isCacheDelete = []) ∧
     (w.repoDeleteRoute p = none →
        (Service.DeleteRoute w p).1 = .ok () ∧
        (Service.DeleteRoute w p).2.filter Event.isCacheDelete =
          [.cacheDeleteEv (routeKey p), .cacheDeleteEv routesKey])) := by
  constructor
  · constructor
    · intro e he
      unfold Service.UpdateRoute
      rw [he]
      exact ⟨rfl, rfl⟩
    · intro he
      unfold Service.UpdateRoute
      rw [he]
      exact ⟨rfl, by simp [List.filter, Event.isCacheDelete]⟩
  · constructor
    · intro e he
      unfold Service.DeleteRoute
      rw [he]
      exact ⟨rfl, rfl⟩
    · intro he
      unfold Service.DeleteRoute
      rw [he]
      exact ⟨rfl, by simp [List.filter, Event.isCacheDelete]⟩

/-- Every `cache.Delete` fails, the repository mutations succeed. -/
def c8World : World :=
  { baseWorld with cacheDelete := fun _ => some (.cacheErr "delete failed") }

/-- The repository mutations fail. -/
def c8FailWorld : World :=
  { baseWorld with
    repoUpdateRoute := fun _ => some (.repoErr "db down"),
    repoDeleteRoute := fun _ => some (.repoErr "db down") }

/-- Witness for C8: with failing cache deletes the mutations still return
nil after issuing both deletions; with a failing repository the error is
returned and no deletion is issued. -/
theorem c8_witness :
    ((Service.UpdateRoute c8World rExact).1 = .ok () ∧
      (Service.UpdateRoute c8World rExact).2.filter Event.isCacheDelete =
        [.cacheDeleteEv (routeKey rExact.path), .cacheDeleteEv routesKey]) ∧
    ((Service.DeleteRoute c8FailWorld "/a/b").1 = .error (.repoErr "db down") ∧
      (Service.DeleteRoute c8FailWorld "/a/b").2.filter Event.isCacheDelete = []) :=
  ⟨(c8_mutation_invalidation c8World rExact "/a/b").1.2 rfl,
   (c8_mutation_invalidation c8FailWorld rExact "/a/b").2.1 (.repoErr "db down") rfl⟩

/-! ### C9 -/

/-- C9: `GetJWTSecret` is the spec's ordered fallback chain — the first
non-empty source among `JWT_SECRET_KEY`, `AG_AUTH_JWT_SECRET_KEY` and the
loaded configuration's secret wins, else the insecure development
default; an earlier non-empty source always shadows every later one. -/
theorem c9_jwt_ordered_fallback (env : JwtEnv) :
    GetJWTSecret env =
      specOrderedFallback
        [env.jwtSecretKey, env.agAuthJwtSecretKey, configSecret env]
        fallbackKey := by
  unfold GetJWTSecret specOrderedFallback configSecret
  by_cases h1 : env.jwtSecretKey = ""
  · by_cases h2 : env.agAuthJwtSecretKey = ""
    · cases hc : env.loadConfig with
      | none => simp [h1, h2, List.find?_cons]
      | some cfg =>
        by_cases h3 : cfg.auth.jwtSecret = ""
        · simp [h1, h2, h3, List.find?_cons]
        · simp [h1, h2, h3, List.find?_cons]
    · simp [h1, h2, List.find?_cons]
  · simp [h1, List.find?_cons]

/-! ### C10 -/

/-- Does a `cache.Set` event (if any) target only the key `k0`? -/
def setKeyIs (k0 : String) : Event → Bool
  | .cacheSetEv k _ _ => k == k0
  | _ => true

/-- Does a `cache.Set` event target only the list key or the requested
path's individual key? -/
def keyOkFor (p : String) : Event → Bool
  | .cacheSetEv k _ _ => k == routesKey || k == routeKey p
  | _ => true

theorem list_all_mono {α : Type} (q r : α → Bool) (l : List α)
    (h : ∀ a, q a = true → r a = true) (hq : l.all q = true) : l.all r = true := by
  rw [List.all_eq_true] at hq ⊢
  exact fun a ha => h a (hq a ha)

theorem keyOkFor_of_routes (p : String) (e : Event)
    (h : setKeyIs routesKey e = true) : keyOkFor p e = true := by
  cases e <;> simp_all [setKeyIs, keyOkFor]

theorem keyOkFor_of_routeKey (p : String) (e : Event)
    (h : setKeyIs (routeKey p) e = true) : keyOkFor p e = true := by
  cases e <;> simp_all [setKeyIs, keyOkFor]

/-- Restatement of `fetchListForScan_sets_keyed` with the named
predicate. -/
theorem fetchListForScan_setKeyIs (w : World) :
    (((Service.fetchListForScan w).2.filter Event.isCacheSet).all
      (setKeyIs routesKey)) = true := by
  unfold Service.fetchListForScan
  cases hg : w.cacheGetList routesKey with
  | error e => simp [List.filter, Event.isCacheSet]
  | ok o =>
    cases o with
    | some rs => simp [List.filter, Event.isCacheSet]
    | none =>
      cases hr : w.repoGetRoutes with
      | error e => simp [List.filter, Event.isCacheSet]
      | ok rs => simp [List.filter, Event.isCacheSet, setKeyIs]

/-- Restatement of `scanRoutes_sets_keyed` with the named predicate. -/
theorem scanRoutes_setKeyIs (w : World) (p : String) (rs : List Route) :
    (((Service.scanRoutes w p rs).2.filter Event.isCacheSet).all
      (setKeyIs (routeKey p))) = true := by
  induction rs with
  | nil => rfl
  | cons r rest ih =>
    by_cases hm : w.matchRoutePath r.path p
    · simp [Service.scanRoutes, hm, List.filter, Event.isCacheSet, setKeyIs]
    · simp only [Service.scanRoutes, hm, if_false, Bool.false_eq_true]
      simpa [List.filter, Event.isCacheSet] using ih

/-- `GetRouteByPath` when the list fetch aborts on a repository error. -/
theorem getRouteByPath_fetch_error (w : World) (p : String) (e : GoErr)
    (hmiss : isIndivHit w p = false)
    (hf : (Service.fetchListForScan w).1 = .error e) :
    Service.GetRouteByPath w p =
      (.error e, .cacheGetEv (routeKey p) :: (Service.fetchListForScan w).2) := by
  rw [getRouteByPath_of_not_hit w p hmiss, hf]

/-- `GetRouteByPath` result in the scan case. -/
theorem getRouteByPath_scan_fst (w : World) (p : String) (rs : List Route)
    (hmiss : isIndivHit w p = false)
    (hf : (Service.fetchListForScan w).1 = .ok rs) :
    (Service.GetRouteByPath w p).1 =
      (match (Service.scanRoutes w p rs).1 with
        | some r => .ok r
        | none => .error .routeNotFound) := by
  rw [getRouteByPath_of_not_hit w p hmiss, hf]
  dsimp only
  cases hs : (Service.scanRoutes w p rs).1 with
  | some r => rfl
  | none => rfl

/-- `GetRouteByPath` trace in the scan case. -/
theorem getRouteByPath_scan_snd (w : World) (p : String) (rs : List Route)
    (hmiss : isIndivHit w p = false)
    (hf : (Service.fetchListForScan w).1 = .ok rs) :
    (Service.GetRouteByPath w p).2 =
      .cacheGetEv (routeKey p) ::
        ((Service.fetchListForScan w).2 ++ (Service.scanRoutes w p rs).2) := by
  rw [getRouteByPath_of_not_hit w p hmiss, hf]
  dsimp only
  cases hs : (Service.scanRoutes w p rs).1 with
  | some r => rfl
  | none => rfl

/-- C10: `GetRouteByPath` only ever writes the `"routes"` key or the
requested path's individual key; a `RouteNotFound` outcome issues no
individual-key write (no negative caching); an individual-cache hit
issues no cache write at all. -/
theorem c10_cache_write_frame (w : World) (p : String) :
    (((Service.GetRouteByPath w p).2.filter Event.isCacheSet).all
      (keyOkFor p) = true) ∧
    ((Service.GetRouteByPath w p).1 = .error .routeNotFound →
      (Service.GetRouteByPath w p).2.filter Event.isIndividualSet = []) ∧
    (isIndivHit w p = true →
      (Service.GetRouteByPath w p).2.filter Event.isCacheSet = []) := by
  by_cases hh : isIndivHit w p = true
  · obtain ⟨r, hr⟩ := (isIndivHit_iff w p).mp hh
    rw [getRouteByPath_of_hit w p r hr]
    refine ⟨rfl, ?_, fun _ => rfl⟩
    intro h
    simp at h
  · have hx : isIndivHit w p = false := by simpa using hh
    cases hf : (Service.fetchListForScan w).1 with
    | error e =>
      rw [getRouteByPath_fetch_error w p e hx hf]
      refine ⟨?_, ?_, ?_⟩
      · have hrw : (Event.cacheGetEv (routeKey p) ::
            (Service.fetchListForScan w).2).filter Event.isCacheSet =
            (Service.fetchListForScan w).2.filter Event.isCacheSet := by
          simp [List.filter_cons, Event.isCacheSet]
        rw [hrw]
        exact list_all_mono _ _ _ (keyOkFor_of_routes p) (fetchListForScan_setKeyIs w)
      · intro _
        simp [List.filter_cons, Event.isIndividualSet, fetchListForScan_sets w]
      · intro hcontra
        rw [hcontra] at hx
        simp at hx
    | ok rs =>
      have hsnd := getRouteByPath_scan_snd w p rs hx hf
      have hfst := getRouteByPath_scan_fst w p rs hx hf
      refine ⟨?_, ?_, ?_⟩
      · rw [hsnd]
        have hrw : (Event.cacheGetEv (routeKey p) ::
            ((Service.fetchListForScan w).2 ++ (Service.scanRoutes w p rs).2)).filter
              Event.isCacheSet =
            ((Service.fetchListForScan w).2.filter Event.isCacheSet) ++
            ((Service.scanRoutes w p rs).2.filter Event.isCacheSet) := by
          simp [List.filter_cons, List.filter_append, Event.isCacheSet]
        rw [hrw, List.all_append]
        have ha := list_all_mono _ _ _ (keyOkFor_of_routes p) (fetchListForScan_setKeyIs w)
        have hb := list_all_mono _ _ _ (keyOkFor_of_routeKey p) (scanRoutes_setKeyIs w p rs)
        simp [ha, hb]
      · intro h
        rw [hfst] at h
        cases hs : (Service.scanRoutes w p rs).1 with
        | some r => rw [hs] at h; simp at h
        | none =>
          have hscan := scanRoutes_individualSets w p rs
          rw [hs] at hscan
          rw [hsnd]
          simp [List.filter_cons, List.filter_append, Event.isIndividualSet,
                fetchListForScan_sets w, hscan]
      · intro hcontra
        rw [hcontra] at hx
        simp at hx

/-- A world in which a lookup for `"/zzz"` ends in `RouteNotFound` after a
`"routes"` repopulation. -/
def c10World : World :=
  { baseWorld with repoGetRoutes := .ok [rExact] }

/-- The individual tier always hits with `rExact`. -/
def c10HitWorld : World :=
  { baseWorld with cacheGetRoute := fun _ => .ok (some rExact) }

/-- Witness for C10: the not-found lookup leaves no individual-key write
behind, and the hit issues no write at all. -/
theorem c10_witness :
    (Service.GetRouteByPath c10World "/zzz").2.filter Event.isIndividualSet = [] ∧
    (Service.GetRouteByPath c10HitWorld "/a/b").2.filter Event.isCacheSet = [] :=
  ⟨(c10_cache_write_frame c10World "/zzz").2.1 rfl,
   (c10_cache_write_frame c10HitWorld "/a/b").2.2 rfl⟩
